import Mathlib

/-!
# Shallow embedding of the VehicleStockControl scan ingestion pipeline

Definitions are translated from the TypeScript sources:
* `src/types.ts` — data model (`ScanLog`, `GeolocationCoordinates`, `EntryMethod`)
* `src/services/firebaseService.ts` — `addScanLog` (audit-log append)
* `src/unnamed/part_003` (geminiService) — `extractVinFromImage` strip/validate
* `src/unnamed/part_004` (ManualVinInput) — `handleVinChange`, `handleSubmit`
* `src/components/VinScanner.tsx` — `confirmVin`
* `src/components/ImageAnalyzer.tsx` — `handleSubmit`
* `src/components/VideoAnalyzer.tsx` — `extractFrames` timing, `handleAnalyze`
  result parsing, `handleGenerateRecords`

Asynchronous platform effects (geolocation, clock, id generation, recognition
text) are passed in as explicit parameters; the persisted store and the
per-session log list are threaded as explicit state.
-/

namespace VehicleStock

/-- `types.ts` `GeolocationCoordinates`: a latitude/longitude pair.
JS numbers are modelled as rationals. -/
structure GeolocationCoordinates where
  latitude : ℚ
  longitude : ℚ
deriving DecidableEq, Repr

/-- `types.ts` `EntryMethod`: the four capture methods. -/
inductive EntryMethod where
  | camera
  | upload
  | manual
  | video
deriving DecidableEq, Repr

/-- `types.ts` `ScanLog`: one persisted scan record. -/
structure ScanLog where
  id : String
  sessionId : String
  vin : String
  parkingArea : String
  timestamp : ℕ
  location : GeolocationCoordinates
  imageUrl : Option String
  entryMethod : EntryMethod
  userId : String
  userEmail : String
deriving DecidableEq, Repr

/-- `Omit<ScanLog, 'id'>` — the candidate data passed to `addScanLog`. -/
structure ScanLogData where
  sessionId : String
  vin : String
  parkingArea : String
  timestamp : ℕ
  location : GeolocationCoordinates
  imageUrl : Option String
  entryMethod : EntryMethod
  userId : String
  userEmail : String
deriving DecidableEq, Repr

/-- Spread of the candidate data together with a generated id
(`{ ...logData, id: ... }` in `addScanLog`). -/
def ScanLogData.withId (d : ScanLogData) (gid : String) : ScanLog :=
  { id := gid, sessionId := d.sessionId, vin := d.vin, parkingArea := d.parkingArea,
    timestamp := d.timestamp, location := d.location, imageUrl := d.imageUrl,
    entryMethod := d.entryMethod, userId := d.userId, userEmail := d.userEmail }

/-- `firebaseService.ts` `addScanLog`: builds the new log with a generated id,
pushes it onto the store and returns it.  The id generator
(`Date.now()` + `Math.random()`) is an external effect, so the generated id is
a parameter.  Returns the updated store and the new record. -/
def addScanLog (store : List ScanLog) (logData : ScanLogData) (gid : String) :
    List ScanLog × ScanLog :=
  let newLog := logData.withId gid
  (store ++ [newLog], newLog)

/-! ## VIN alphabet and single-identifier parsing (geminiService) -/

/-- Membership in the character class `[A-HJ-NPR-Z0-9]` used by
`extractVinFromImage` (part_003 line 27) and `handleVinChange`
(part_004 line 24): uppercase letters except I, O, Q, plus digits. -/
def isVinChar (c : Char) : Bool :=
  ('A' ≤ c && c ≤ 'H') || ('J' ≤ c && c ≤ 'N') || c == 'P' ||
    ('R' ≤ c && c ≤ 'Z') || ('0' ≤ c && c ≤ '9')

/-- JS `String.prototype.trim` whitespace test (restricted to the common
whitespace characters). -/
def isJsWs (c : Char) : Bool :=
  [' ', '\t', '\n', '\r'].contains c

/-- JS `s.trim()`: drop leading and trailing whitespace. -/
def jsTrim (s : String) : String :=
  String.mk (((s.data.dropWhile isJsWs).reverse.dropWhile isJsWs).reverse)

/-- `s.replace(/[^A-HJ-NPR-Z0-9]/g, '')`: keep only restricted-alphabet
characters, preserving order. -/
def stripToVinAlphabet (s : String) : String :=
  String.mk (s.data.filter isVinChar)

/-- `geminiService.extractVinFromImage`, the pure part after the recognition
call returns `text`: `text.trim().replace(/[^A-HJ-NPR-Z0-9]/g, '')`, then
`if (vin.length !== 17) throw Error(...)`.  The error carries the offending
length (part_003 line 29). -/
def extractVinFromImage (text : String) : Except ℕ String :=
  let vin := stripToVinAlphabet (jsTrim text)
  if vin.length = 17 then Except.ok vin else Except.error vin.length

/-- The literal alphabet stated in the spec sentence for claim C3:
`{A–H, J–N, P–R, 0–9}` — written from the spec's words, for comparison with
the source's `isVinChar`. -/
def isSpecClaimVinChar (c : Char) : Bool :=
  ('A' ≤ c && c ≤ 'H') || ('J' ≤ c && c ≤ 'N') || ('P' ≤ c && c ≤ 'R') ||
    ('0' ≤ c && c ≤ '9')

/-! ## Coordinator state: session logs, store, metadata -/

/-- The per-session metadata every coordinator stamps onto a record
(props `sessionId`, `parkingArea`, `currentUser`). -/
structure SessionMeta where
  sessionId : String
  parkingArea : String
  userId : String
  userEmail : String
deriving DecidableEq, Repr

/-- `sessionLogs.some(log => log.vin === vin)` — the duplicate check every
coordinator runs against the active session's logs. -/
def sessionHasVin (sessionLogs : List ScanLog) (vin : String) : Bool :=
  sessionLogs.any (fun log => log.vin == vin)

/-- Errors surfaced by the capture coordinators. -/
inductive ScanError where
  | invalidLength
  | duplicateVin
  | locationUnavailable
  | invalidVin (n : ℕ)
deriving DecidableEq, Repr

/-- Result of one coordinator submit: the outcome, the updated session logs
(`onScan` prepends on success), and the updated store.  On error both lists
are returned unchanged (the handlers return before `addScanLog`). -/
abbrev SubmitResult := Except ScanError ScanLog × List ScanLog × List ScanLog

/-- The candidate data built by `ManualVinInput.handleSubmit`
(part_004 lines 55-64). -/
def manualLogData (m : SessionMeta) (vin : String) (now : ℕ)
    (loc : GeolocationCoordinates) : ScanLogData :=
  { sessionId := m.sessionId, vin := vin, parkingArea := m.parkingArea,
    timestamp := now, location := loc, imageUrl := none,
    entryMethod := EntryMethod.manual, userId := m.userId, userEmail := m.userEmail }

/-- `ManualVinInput.handleVinChange` (part_004 lines 22-26):
`value.toUpperCase().replace(/[^A-HJ-NPR-Z0-9]/g, '').slice(0, 17)`. -/
def handleVinChange (value : String) : String :=
  String.mk ((value.toUpper.data.filter isVinChar).take 17)

/-- `ManualVinInput.handleSubmit` (part_004 lines 28-76): reject unless the
entered VIN is exactly 17 characters; reject a VIN already in the session's
logs; acquire geolocation (`none` models `getCurrentPosition` failure, which
rejects the whole attempt); then persist via `addScanLog` and prepend the new
log to the session (`onScan` → `handleScan` in `AgentApp.tsx`). -/
def manualHandleSubmit (sessionLogs store : List ScanLog) (m : SessionMeta)
    (vin : String) (geo : Option GeolocationCoordinates) (gid : String)
    (now : ℕ) : SubmitResult :=
  if vin.length ≠ 17 then
    (Except.error ScanError.invalidLength, sessionLogs, store)
  else if sessionHasVin sessionLogs vin then
    (Except.error ScanError.duplicateVin, sessionLogs, store)
  else
    match geo with
    | none => (Except.error ScanError.locationUnavailable, sessionLogs, store)
    | some loc =>
        let p := addScanLog store (manualLogData m vin now loc) gid
        (Except.ok p.2, p.2 :: sessionLogs, p.1)

/-- The candidate data built by `VinScanner.confirmVin` (lines 200-210). -/
def cameraLogData (m : SessionMeta) (vin : String) (now : ℕ)
    (loc : GeolocationCoordinates) (imageUrl : String) : ScanLogData :=
  { sessionId := m.sessionId, vin := vin, parkingArea := m.parkingArea,
    timestamp := now, location := loc, imageUrl := some imageUrl,
    entryMethod := EntryMethod.camera, userId := m.userId, userEmail := m.userEmail }

/-- `VinScanner.confirmVin` (lines 171-222): duplicate check against the
session logs first (lines 174-182), then geolocation (failure rejects the
attempt), then image upload (its URL is a parameter), then `addScanLog` and
`onScan`.  The recognized `vin` has already passed `extractVinFromImage`. -/
def confirmVin (sessionLogs store : List ScanLog) (m : SessionMeta)
    (vin : String) (geo : Option GeolocationCoordinates) (imageUrl : String)
    (gid : String) (now : ℕ) : SubmitResult :=
  if sessionHasVin sessionLogs vin then
    (Except.error ScanError.duplicateVin, sessionLogs, store)
  else
    match geo with
    | none => (Except.error ScanError.locationUnavailable, sessionLogs, store)
    | some loc =>
        let p := addScanLog store (cameraLogData m vin now loc imageUrl) gid
        (Except.ok p.2, p.2 :: sessionLogs, p.1)

/-- The candidate data built by `ImageAnalyzer.handleSubmit` (lines 82-92). -/
def uploadLogData (m : SessionMeta) (vin : String) (now : ℕ)
    (loc : GeolocationCoordinates) (imageUrl : String) : ScanLogData :=
  { sessionId := m.sessionId, vin := vin, parkingArea := m.parkingArea,
    timestamp := now, location := loc, imageUrl := some imageUrl,
    entryMethod := EntryMethod.upload, userId := m.userId, userEmail := m.userEmail }

/-- `ImageAnalyzer.handleSubmit` (lines 44-109): geolocation first (failure
rejects the attempt before any recognition), then VIN extraction from the
recognition text, then the duplicate check, then `addScanLog` and `onScan`. -/
def imageHandleSubmit (sessionLogs store : List ScanLog) (m : SessionMeta)
    (geo : Option GeolocationCoordinates) (recognizedText : String)
    (imageUrl : String) (gid : String) (now : ℕ) : SubmitResult :=
  match geo with
  | none => (Except.error ScanError.locationUnavailable, sessionLogs, store)
  | some loc =>
      match extractVinFromImage recognizedText with
      | Except.error n => (Except.error (ScanError.invalidVin n), sessionLogs, store)
      | Except.ok vin =>
          if sessionHasVin sessionLogs vin then
            (Except.error ScanError.duplicateVin, sessionLogs, store)
          else
            let p := addScanLog store (uploadLogData m vin now loc imageUrl) gid
            (Except.ok p.2, p.2 :: sessionLogs, p.1)

/-! ## Frame Sampler (`VideoAnalyzer.extractFrames`) -/

/-- `VideoAnalyzer.tsx` line 18: `const FRAME_COUNT = 8`. -/
def FRAME_COUNT : ℕ := 8

/-- `const finalDuration = video.duration || 10` (line 63): an unknown or
zero duration falls back to 10 time units. -/
def finalDuration : Option ℚ → ℚ
  | none => 10
  | some d => if d = 0 then 10 else d

/-- The timestamps sought by the frame-extraction loop
(`VideoAnalyzer.extractFrames` lines 63-70): `interval = duration/frameCount`
and, for `i = 0 .. frameCount-1`, `time = Math.min(i * interval,
finalDuration - 0.1)`. -/
def extractFrameTimes (duration : ℚ) (frameCount : ℕ) : List ℚ :=
  let interval := duration / frameCount
  (List.range frameCount).map (fun (i : ℕ) => min ((i : ℚ) * interval) (duration - 1/10))

/-! ## Candidate Parser, multi-identifier mode (`VideoAnalyzer.handleAnalyze`) -/

/-- The three alternatives of the fence-stripping regex
`/```json\n|\n```|```/g` (line 117). -/
def fenceJson : List Char := "```json\n".data

/-- Second fence alternative. -/
def fenceNl : List Char := "\n```".data

/-- Third fence alternative. -/
def fencePlain : List Char := "```".data

/-- Global replacement of the fence tokens with the empty string, scanning
left to right and trying the regex alternatives in order, as the JS engine
does.  `fuel` bounds the recursion by the input length. -/
def stripFenceTokens (fuel : ℕ) (cs : List Char) : List Char :=
  match fuel with
  | 0 => cs
  | fuel + 1 =>
      match cs with
      | [] => []
      | c :: rest =>
          if fenceJson.isPrefixOf (c :: rest) then
            stripFenceTokens fuel ((c :: rest).drop fenceJson.length)
          else if fenceNl.isPrefixOf (c :: rest) then
            stripFenceTokens fuel ((c :: rest).drop fenceNl.length)
          else if fencePlain.isPrefixOf (c :: rest) then
            stripFenceTokens fuel ((c :: rest).drop fencePlain.length)
          else c :: stripFenceTokens fuel rest

/-- `rawResult.replace(/```json\n|\n```|```/g, '').trim()` (line 117). -/
def cleanRecognitionText (raw : String) : String :=
  jsTrim (String.mk (stripFenceTokens raw.data.length raw.data))

/-- JSON values, as produced by `JSON.parse`.  Numbers keep their lexeme: the
pipeline only ever asks whether a value is a string, never a number's value. -/
inductive Json where
  | str (s : String)
  | num (lexeme : String)
  | bool (b : Bool)
  | null
  | arr (elems : List Json)
  | obj (fields : List (String × Json))

/-- Decimal digit test. -/
def isDigitChar (c : Char) : Bool := c.isDigit

/-- Hexadecimal digit value, for `\uXXXX` escapes, read off the code point:
48–57 are the digits, 65–70 uppercase A–F, 97–102 lowercase a–f. -/
def hexDigitValue (c : Char) : Option ℕ :=
  let n := c.toNat
  if 48 ≤ n && n < 58 then some (n - 48)
  else if 65 ≤ n && n < 71 then some (n - 55)
  else if 97 ≤ n && n < 103 then some (n - 87)
  else none

/-- Body of a JSON string literal, after the opening quote: content up to the
closing quote, handling the JSON escapes; unescaped control characters are
rejected as `JSON.parse` does. -/
def parseJsonStringBody (fuel : ℕ) (cs : List Char) (acc : List Char) :
    Option (String × List Char) :=
  match fuel with
  | 0 => none
  | fuel + 1 =>
      match cs with
      | [] => none
      | '"' :: rest => some (String.mk acc.reverse, rest)
      | '\\' :: e :: rest =>
          match e with
          | '"' => parseJsonStringBody fuel rest ('"' :: acc)
          | '\\' => parseJsonStringBody fuel rest ('\\' :: acc)
          | '/' => parseJsonStringBody fuel rest ('/' :: acc)
          | 'n' => parseJsonStringBody fuel rest ('\n' :: acc)
          | 't' => parseJsonStringBody fuel rest ('\t' :: acc)
          | 'r' => parseJsonStringBody fuel rest ('\r' :: acc)
          | 'b' => parseJsonStringBody fuel rest (Char.ofNat 8 :: acc)
          | 'f' => parseJsonStringBody fuel rest (Char.ofNat 12 :: acc)
          | 'u' =>
              match rest with
              | h1 :: h2 :: h3 :: h4 :: rest2 =>
                  match hexDigitValue h1, hexDigitValue h2,
                      hexDigitValue h3, hexDigitValue h4 with
                  | some a, some b, some c, some d =>
                      parseJsonStringBody fuel rest2
                        (Char.ofNat (((a * 16 + b) * 16 + c) * 16 + d) :: acc)
                  | _, _, _, _ => none
              | _ => none
          | _ => none
      | c :: rest =>
          if c.toNat < 32 then none
          else parseJsonStringBody fuel rest (c :: acc)

/-- A JSON number token: `-? digits (. digits)? ([eE] [+-]? digits)?`.
Returns the lexeme and the remaining input. -/
def parseJsonNumberToken (cs : List Char) : Option (String × List Char) :=
  let sign := match cs with | '-' :: r => (['-'], r) | _ => (([] : List Char), cs)
  match sign.2 with
  | [] => none
  | c :: _ =>
      if ¬ isDigitChar c then none
      else
        let intPart := sign.2.takeWhile isDigitChar
        let cs2 := sign.2.dropWhile isDigitChar
        let fracPair :=
          match cs2 with
          | '.' :: r =>
              let ds := r.takeWhile isDigitChar
              if ds = [] then (([] : List Char), cs2)
              else ('.' :: ds, r.dropWhile isDigitChar)
          | _ => (([] : List Char), cs2)
        let expPair :=
          match fracPair.2 with
          | e :: r =>
              if e == 'e' || e == 'E' then
                let signedRest :=
                  match r with
                  | '+' :: rr => (['+'], rr)
                  | '-' :: rr => (['-'], rr)
                  | _ => (([] : List Char), r)
                let ds := signedRest.2.takeWhile isDigitChar
                if ds = [] then (([] : List Char), fracPair.2)
                else (e :: (signedRest.1 ++ ds), signedRest.2.dropWhile isDigitChar)
              else (([] : List Char), fracPair.2)
          | [] => (([] : List Char), fracPair.2)
        some (String.mk (sign.1 ++ intPart ++ fracPair.1 ++ expPair.1), expPair.2)

mutual

/-- A JSON value at the head of the input (after leading whitespace),
modelling `JSON.parse`'s grammar.  `fuel` bounds the recursion depth. -/
def parseJsonValue (fuel : ℕ) (cs : List Char) : Option (Json × List Char) :=
  match fuel with
  | 0 => none
  | fuel + 1 =>
      match cs.dropWhile isJsWs with
      | [] => none
      | '"' :: rest =>
          (parseJsonStringBody (rest.length + 1) rest []).map
            (fun p => (Json.str p.1, p.2))
      | '[' :: rest => parseJsonArrayItems fuel rest true []
      | '{' :: rest => parseJsonObjItems fuel rest true []
      | 't' :: rest =>
          if ['r', 'u', 'e'].isPrefixOf rest then
            some (Json.bool true, rest.drop 3)
          else none
      | 'f' :: rest =>
          if ['a', 'l', 's', 'e'].isPrefixOf rest then
            some (Json.bool false, rest.drop 4)
          else none
      | 'n' :: rest =>
          if ['u', 'l', 'l'].isPrefixOf rest then
            some (Json.null, rest.drop 3)
          else none
      | c :: rest =>
          if c == '-' || isDigitChar c then
            (parseJsonNumberToken (c :: rest)).map (fun p => (Json.num p.1, p.2))
          else none

/-- Items of a JSON array, after the opening bracket. -/
def parseJsonArrayItems (fuel : ℕ) (cs : List Char) (first : Bool)
    (acc : List Json) : Option (Json × List Char) :=
  match fuel with
  | 0 => none
  | fuel + 1 =>
      match cs.dropWhile isJsWs with
      | ']' :: rest => some (Json.arr acc.reverse, rest)
      | other =>
          if first then
            match parseJsonValue fuel other with
            | some (v, rest) => parseJsonArrayItems fuel rest false (v :: acc)
            | none => none
          else
            match other with
            | ',' :: rest =>
                match parseJsonValue fuel rest with
                | some (v, rest2) => parseJsonArrayItems fuel rest2 false (v :: acc)
                | none => none
            | _ => none

/-- Members of a JSON object, after the opening brace. -/
def parseJsonObjItems (fuel : ℕ) (cs : List Char) (first : Bool)
    (acc : List (String × Json)) : Option (Json × List Char) :=
  match fuel with
  | 0 => none
  | fuel + 1 =>
      match cs.dropWhile isJsWs with
      | '}' :: rest => some (Json.obj acc.reverse, rest)
      | other =>
          let afterComma : Option (List Char) :=
            if first then some other
            else
              match other with
              | ',' :: rest => some rest
              | _ => none
          match afterComma with
          | none => none
          | some cs2 =>
              match cs2.dropWhile isJsWs with
              | '"' :: rest =>
                  match parseJsonStringBody (rest.length + 1) rest [] with
                  | some (key, rest2) =>
                      match rest2.dropWhile isJsWs with
                      | ':' :: rest3 =>
                          match parseJsonValue fuel rest3 with
                          | some (v, rest4) =>
                              parseJsonObjItems fuel rest4 false ((key, v) :: acc)
                          | none => none
                      | _ => none
                  | none => none
              | _ => none

end

/-- `JSON.parse(s)`: a single JSON value with nothing but whitespace after
it; any other input throws (here: `none`).  The fuel `4 * length + 16`
dominates the parser's recursion depth, which grows by at most two per
consumed character. -/
def parseJson (s : String) : Option Json :=
  match parseJsonValue (4 * s.length + 16) s.data with
  | some (v, rest) => if rest.dropWhile isJsWs = [] then some v else none
  | none => none

/-- Character class `[A-Z0-9]` of the fallback regex (line 137). -/
def isUpperDigit (c : Char) : Bool :=
  ('A' ≤ c && c ≤ 'Z') || ('0' ≤ c && c ≤ '9')

/-- `rawResult.match(/[A-Z0-9]{10,20}/g)`: the JS engine attempts a greedy
match at each position and resumes after each match, so a maximal run of `n`
class characters yields a match of `min n 20` when `n ≥ 10` (and the scan
continues after it), and no match when `n < 10`. -/
def vinRegexScan (fuel : ℕ) (cs : List Char) : List String :=
  match fuel with
  | 0 => []
  | fuel + 1 =>
      match cs with
      | [] => []
      | c :: rest =>
          if isUpperDigit c then
            let run := (c :: rest).takeWhile isUpperDigit
            if 10 ≤ run.length then
              let m := min run.length 20
              String.mk ((c :: rest).take m) :: vinRegexScan fuel ((c :: rest).drop m)
            else vinRegexScan fuel rest
          else vinRegexScan fuel rest

/-- Elements of `l` not yet in `seen`, first occurrences only, in order —
the recursion behind `jsSetDedup`. -/
def jsSetDedupAcc (seen : List String) : List String → List String
  | [] => []
  | x :: xs =>
      if x ∈ seen then jsSetDedupAcc seen xs
      else x :: jsSetDedupAcc (x :: seen) xs

/-- `[...new Set(list)]`: deduplication by exact string equality, keeping the
first occurrence of each element, in order. -/
def jsSetDedup (l : List String) : List String :=
  jsSetDedupAcc [] l

/-- The parsing section of `VideoAnalyzer.handleAnalyze` (lines 117-144),
from the raw recognition text to the detected-VIN list: strip code fences and
trim, try `JSON.parse`; on an array, keep the string elements of length
10-20 and deduplicate; on a parse failure or a non-array value, fall back to
the `[A-Z0-9]{10,20}` scan over the *raw* text and deduplicate. -/
def handleAnalyzeVins (rawResult : String) : List String :=
  let cleanedResult := cleanRecognitionText rawResult
  match parseJson cleanedResult with
  | some (Json.arr parsedVins) =>
      let validVins := parsedVins.filterMap (fun j =>
        match j with
        | Json.str s => if 10 ≤ s.length && s.length ≤ 20 then some s else none
        | _ => none)
      jsSetDedup validVins
  | _ => jsSetDedup (vinRegexScan rawResult.data.length rawResult.data)

/-! ## Video batch persistence (`VideoAnalyzer.handleGenerateRecords`) -/

/-- The candidate data built inside the `handleGenerateRecords` loop
(lines 181-190). -/
def videoLogData (m : SessionMeta) (vin : String) (now : ℕ)
    (loc : GeolocationCoordinates) : ScanLogData :=
  { sessionId := m.sessionId, vin := vin, parkingArea := m.parkingArea,
    timestamp := now, location := loc, imageUrl := none,
    entryMethod := EntryMethod.video, userId := m.userId, userEmail := m.userEmail }

/-- The `for (const vin of detectedVins)` loop (lines 177-194): each VIN is
checked against the session-log *snapshot* captured by the closure, skipped
if present, otherwise persisted via `addScanLog` and prepended to the session
logs (`onScan`); `addedCount` counts the persisted records.  `genId k` is the
id generated for the `k`-th append. -/
def videoGenLoop (snapshot : List ScanLog) (m : SessionMeta)
    (loc : GeolocationCoordinates) (now : ℕ) (genId : ℕ → String) :
    List String → List ScanLog → List ScanLog → ℕ →
    List ScanLog × List ScanLog × ℕ
  | [], sessionLogs, store, _ => (sessionLogs, store, 0)
  | vin :: rest, sessionLogs, store, k =>
      if sessionHasVin snapshot vin then
        videoGenLoop snapshot m loc now genId rest sessionLogs store k
      else
        let p := addScanLog store (videoLogData m vin now loc) (genId k)
        let r := videoGenLoop snapshot m loc now genId rest (p.2 :: sessionLogs) p.1 (k + 1)
        (r.1, r.2.1, r.2.2 + 1)

/-- `VideoAnalyzer.handleGenerateRecords` (lines 155-207): geolocation is
acquired with a `{latitude: 0, longitude: 0}` fallback on failure (lines
168-171), then every detected VIN not in the session snapshot is persisted in
sequence.  Returns the updated session logs, the updated store, and the
reported `addedCount`. -/
def handleGenerateRecords (sessionLogs store : List ScanLog) (m : SessionMeta)
    (detectedVins : List String) (geo : Option GeolocationCoordinates)
    (genId : ℕ → String) (now : ℕ) : List ScanLog × List ScanLog × ℕ :=
  let loc := geo.getD { latitude := 0, longitude := 0 }
  videoGenLoop sessionLogs m loc now genId detectedVins sessionLogs store 0

/-! ## Interleaving model of two concurrent confirmations

`confirmVin` runs its duplicate check against the session logs synchronously
(lines 174-182), then suspends at the geolocation / upload / `addScanLog`
awaits before the append and the `onScan` ledger update take effect.  Each
confirmation is therefore two atomic steps separated by a yield point: a
*check* step that reads the session logs, and an *append* step that runs only
if the check passed.  A schedule interleaves the steps of two confirmations
of the same identifier in the same session. -/

/-- Progress of one in-flight confirmation. -/
inductive TaskPhase where
  | ready
  | passed
  | appended
  | rejected
deriving DecidableEq, Repr

/-- Which of the two concurrent confirmations acts. -/
inductive TaskId where
  | A
  | B
deriving DecidableEq, Repr

/-- One atomic step of a confirmation: the synchronous duplicate check, or
the post-await append-and-ledger-update. -/
inductive RaceAction where
  | check (t : TaskId)
  | append (t : TaskId)
deriving DecidableEq, Repr

/-- Shared state seen by the two confirmations: the session logs and the
store, plus each task's phase. -/
structure RaceState where
  sessionLogs : List ScanLog
  store : List ScanLog
  phaseA : TaskPhase
  phaseB : TaskPhase
deriving DecidableEq, Repr

/-- The duplicate check of `confirmVin` (lines 174-182), as one atomic step:
a ready task reads the *current* session logs and either rejects as a
duplicate or proceeds. -/
def checkStep (vin : String) (sessionLogs : List ScanLog) :
    TaskPhase → TaskPhase
  | TaskPhase.ready =>
      if sessionHasVin sessionLogs vin then TaskPhase.rejected else TaskPhase.passed
  | p => p

/-- One step of the interleaved execution.  An append step of a task that
passed its check performs `addScanLog` plus the `onScan` prepend (lines
212-213); appends of tasks that have not passed are no-ops. -/
def raceStep (vin : String) (logA logB : ScanLog) (s : RaceState) :
    RaceAction → RaceState
  | RaceAction.check TaskId.A =>
      { s with phaseA := checkStep vin s.sessionLogs s.phaseA }
  | RaceAction.check TaskId.B =>
      { s with phaseB := checkStep vin s.sessionLogs s.phaseB }
  | RaceAction.append TaskId.A =>
      if s.phaseA = TaskPhase.passed then
        { s with store := s.store ++ [logA], sessionLogs := logA :: s.sessionLogs,
                 phaseA := TaskPhase.appended }
      else s
  | RaceAction.append TaskId.B =>
      if s.phaseB = TaskPhase.passed then
        { s with store := s.store ++ [logB], sessionLogs := logB :: s.sessionLogs,
                 phaseB := TaskPhase.appended }
      else s

/-- Run a schedule of interleaved steps from an initial state. -/
def runRace (vin : String) (logA logB : ScanLog) (actions : List RaceAction)
    (s : RaceState) : RaceState :=
  actions.foldl (raceStep vin logA logB) s

/-! ## Concrete fixtures shared by several theorems -/

/-- A session's metadata, for concrete instances. -/
def metaS1 : SessionMeta :=
  { sessionId := "S1", parkingArea := "Dock 7", userId := "u1",
    userEmail := "agent@example.com" }

/-- A well-formed 17-character VIN. -/
def vinX : String := "1G1FW1R77J4100000"

/-- A second 17-character identifier. -/
def vinB : String := "AAAAAAAAAA1111111"

/-- A third 17-character identifier. -/
def vinC : String := "BBBBBBBBBB2222222"

/-- A concrete geolocation fix. -/
def locP : GeolocationCoordinates := { latitude := 1, longitude := 2 }

/-- A record for `vinX` already accepted into session `S1`. -/
def logX : ScanLog := (manualLogData metaS1 vinX 0 locP).withId "log1"

/-- A second session's metadata, for cross-session instances. -/
def metaS2 : SessionMeta :=
  { sessionId := "S2", parkingArea := "Dock 8", userId := "u2",
    userEmail := "b@example.com" }

/-- A malformed-JSON recognition output with the identifier `ABCDEFGHIJ1234`
embedded in prose. -/
def proseRecognition : String := "I found these: ABCDEFGHIJ1234 in the frames."

/-- The record task A would append (a camera confirmation of `vinX`). -/
def raceLogA : ScanLog := (cameraLogData metaS1 vinX 1 locP "url1").withId "logA"

/-- The record task B would append (a second confirmation of `vinX`). -/
def raceLogB : ScanLog := (cameraLogData metaS1 vinX 2 locP "url2").withId "logB"

/-- Both confirmations start against an empty session. -/
def raceInit : RaceState :=
  { sessionLogs := [], store := [], phaseA := TaskPhase.ready,
    phaseB := TaskPhase.ready }

/-- A sequential schedule: A checks and appends before B starts. -/
def seqSchedule : List RaceAction :=
  [RaceAction.check TaskId.A, RaceAction.append TaskId.A,
   RaceAction.check TaskId.B, RaceAction.append TaskId.B]

/-- The racy schedule: both duplicate checks run before either append. -/
def racySchedule : List RaceAction :=
  [RaceAction.check TaskId.A, RaceAction.check TaskId.B,
   RaceAction.append TaskId.A, RaceAction.append TaskId.B]

/-! ## Helper lemmas -/

/-- Anything the dedup recursion emits was in the input. -/
theorem mem_jsSetDedupAcc {a : String} :
    ∀ (l : List String) (seen : List String), a ∈ jsSetDedupAcc seen l → a ∈ l := by
  intro l
  induction l with
  | nil => intro seen h; simp [jsSetDedupAcc] at h
  | cons x xs ih =>
      intro seen h
      rw [jsSetDedupAcc] at h
      by_cases hx : x ∈ seen
      · simp only [hx, if_true] at h
        exact List.mem_cons_of_mem x (ih seen h)
      · simp only [hx, if_false] at h
        rcases List.mem_cons.1 h with h1 | h1
        · exact h1 ▸ List.mem_cons_self x xs
        · exact List.mem_cons_of_mem x (ih (x :: seen) h1)

/-- Anything in the deduplicated list was in the input. -/
theorem mem_jsSetDedup {a : String} {l : List String} (h : a ∈ jsSetDedup l) :
    a ∈ l :=
  mem_jsSetDedupAcc l [] h

/-- The dedup recursion emits no duplicates and nothing already seen. -/
theorem jsSetDedupAcc_nodup :
    ∀ (l : List String) (seen : List String),
      (jsSetDedupAcc seen l).Nodup ∧ ∀ a ∈ jsSetDedupAcc seen l, a ∉ seen := by
  intro l
  induction l with
  | nil => intro seen; simp [jsSetDedupAcc]
  | cons x xs ih =>
      intro seen
      rw [jsSetDedupAcc]
      by_cases hx : x ∈ seen
      · simpa [hx] using ih seen
      · simp only [hx, if_false]
        obtain ⟨hnd, hns⟩ := ih (x :: seen)
        refine ⟨List.nodup_cons.2 ⟨fun hmem => ?_, hnd⟩, ?_⟩
        · exact hns x hmem (List.mem_cons_self x seen)
        · intro a ha
          rcases List.mem_cons.1 ha with h1 | h1
          · exact h1 ▸ hx
          · exact fun hc => hns a h1 (List.mem_cons_of_mem x hc)

/-- The deduplicated list has no duplicates. -/
theorem jsSetDedup_nodup (l : List String) : (jsSetDedup l).Nodup :=
  (jsSetDedupAcc_nodup l []).1

/-- The length of a string built from an explicit character list. -/
theorem stringMk_length (l : List Char) : (String.mk l).length = l.length := rfl

/-- `takeWhile` never lengthens a list. -/
theorem takeWhile_length_le (p : Char → Bool) (l : List Char) :
    (l.takeWhile p).length ≤ l.length := by
  induction l with
  | nil => simp
  | cons c cs ih =>
      by_cases h : p c
      · simp only [List.takeWhile_cons, h, if_true, List.length_cons]
        omega
      · simp [List.takeWhile_cons, h]

/-- Every match of the fallback scan has length between 10 and 20. -/
theorem vinRegexScan_length {v : String} :
    ∀ (fuel : ℕ) (cs : List Char), v ∈ vinRegexScan fuel cs →
      10 ≤ v.length ∧ v.length ≤ 20 := by
  intro fuel
  induction fuel with
  | zero => intro cs h; simp [vinRegexScan] at h
  | succ fuel ih =>
      intro cs h
      match cs with
      | [] => simp [vinRegexScan] at h
      | c :: rest =>
          rw [vinRegexScan] at h
          by_cases hc : isUpperDigit c
          · simp only [hc, if_true] at h
            by_cases hrun : 10 ≤ ((c :: rest).takeWhile isUpperDigit).length
            · simp only [hrun, if_true] at h
              rcases List.mem_cons.1 h with h1 | h1
              · subst h1
                have hm : min ((c :: rest).takeWhile isUpperDigit).length 20 ≤
                    (c :: rest).length :=
                  le_trans (min_le_left _ _) (takeWhile_length_le _ _)
                have hlen :
                    (String.mk ((c :: rest).take
                        (min ((c :: rest).takeWhile isUpperDigit).length 20))).length =
                      min ((c :: rest).takeWhile isUpperDigit).length 20 := by
                  rw [stringMk_length, List.length_take]
                  exact Nat.min_eq_left hm
                rw [hlen]
                exact ⟨le_min hrun (by norm_num), min_le_right _ _⟩
              · exact ih _ h1
            · simp only [hrun, if_false] at h
              exact ih _ h
          · simp only [hc, if_false] at h
            exact ih _ h

/-- Characterization of the `handleGenerateRecords` loop: the reported count
is the number of detected VINs missing from the session snapshot; the store
grows by exactly that many records and keeps its old entries as a prefix;
the session logs grow by the same number; every store entry is either an old
one or a freshly built video record for a non-duplicate detected VIN. -/
theorem videoGenLoop_spec (snapshot : List ScanLog) (m : SessionMeta)
    (loc : GeolocationCoordinates) (now : ℕ) (genId : ℕ → String) :
    ∀ (vins : List String) (sessionLogs store : List ScanLog) (k : ℕ),
      (videoGenLoop snapshot m loc now genId vins sessionLogs store k).2.2 =
        (vins.filter (fun v => !sessionHasVin snapshot v)).length ∧
      (videoGenLoop snapshot m loc now genId vins sessionLogs store k).2.1.length =
        store.length + (vins.filter (fun v => !sessionHasVin snapshot v)).length ∧
      (videoGenLoop snapshot m loc now genId vins sessionLogs store k).1.length =
        sessionLogs.length + (vins.filter (fun v => !sessionHasVin snapshot v)).length ∧
      (videoGenLoop snapshot m loc now genId vins sessionLogs store k).2.1.take store.length =
        store ∧
      (∀ l ∈ (videoGenLoop snapshot m loc now genId vins sessionLogs store k).2.1,
        l ∈ store ∨ (l.location = loc ∧ l.entryMethod = EntryMethod.video ∧
          l.sessionId = m.sessionId ∧ l.vin ∈ vins ∧
          sessionHasVin snapshot l.vin = false)) := by
  intro vins
  induction vins with
  | nil => intro sessionLogs store k; simp [videoGenLoop]
  | cons vin rest ih =>
      intro sessionLogs store k
      cases hdup : sessionHasVin snapshot vin with
      | true =>
          have e : videoGenLoop snapshot m loc now genId (vin :: rest) sessionLogs store k =
              videoGenLoop snapshot m loc now genId rest sessionLogs store k := by
            simp [videoGenLoop, hdup]
          have hf : (vin :: rest).filter (fun v => !sessionHasVin snapshot v) =
              rest.filter (fun v => !sessionHasVin snapshot v) := by
            simp [List.filter_cons, hdup]
          rw [e, hf]
          obtain ⟨h1, h2, h3, h4, h5⟩ := ih sessionLogs store k
          refine ⟨h1, h2, h3, h4, fun l hl => (h5 l hl).imp_right fun hp => ?_⟩
          exact ⟨hp.1, hp.2.1, hp.2.2.1, List.mem_cons_of_mem _ hp.2.2.2.1, hp.2.2.2.2⟩
      | false =>
          have e : videoGenLoop snapshot m loc now genId (vin :: rest) sessionLogs store k =
              ((videoGenLoop snapshot m loc now genId rest
                  ((videoLogData m vin now loc).withId (genId k) :: sessionLogs)
                  (store ++ [(videoLogData m vin now loc).withId (genId k)]) (k + 1)).1,
               (videoGenLoop snapshot m loc now genId rest
                  ((videoLogData m vin now loc).withId (genId k) :: sessionLogs)
                  (store ++ [(videoLogData m vin now loc).withId (genId k)]) (k + 1)).2.1,
               (videoGenLoop snapshot m loc now genId rest
                  ((videoLogData m vin now loc).withId (genId k) :: sessionLogs)
                  (store ++ [(videoLogData m vin now loc).withId (genId k)]) (k + 1)).2.2 + 1) := by
            simp [videoGenLoop, hdup, addScanLog]
          have hf : (vin :: rest).filter (fun v => !sessionHasVin snapshot v) =
              vin :: rest.filter (fun v => !sessionHasVin snapshot v) := by
            simp [List.filter_cons, hdup]
          rw [e, hf]
          obtain ⟨h1, h2, h3, h4, h5⟩ :=
            ih ((videoLogData m vin now loc).withId (genId k) :: sessionLogs)
              (store ++ [(videoLogData m vin now loc).withId (genId k)]) (k + 1)
          refine ⟨by simpa using h1, ?_, ?_, ?_, ?_⟩
          · rw [h2]; simp; omega
          · rw [h3]; simp; omega
          · have htt := congrArg (List.take store.length) h4
            rw [List.take_take] at htt
            have hmin : min store.length (store ++
                [(videoLogData m vin now loc).withId (genId k)]).length = store.length := by
              simp
            rw [hmin] at htt
            rw [htt]
            exact List.take_left store [(videoLogData m vin now loc).withId (genId k)]
          · intro l hl
            rcases h5 l hl with hmem | hp
            · rcases List.mem_append.1 hmem with hm1 | hm2
              · exact Or.inl hm1
              · have hl2 : l = (videoLogData m vin now loc).withId (genId k) := by
                  simpa using hm2
                subst hl2
                exact Or.inr ⟨rfl, rfl, rfl, List.mem_cons_self _ _, hdup⟩
            · exact Or.inr
                ⟨hp.1, hp.2.1, hp.2.2.1, List.mem_cons_of_mem _ hp.2.2.2.1, hp.2.2.2.2⟩

/-! ## Claim theorems -/

/-- C10: `addScanLog` appends exactly one new record whose fields other than
the generated id equal the candidate data, returns that record, and leaves
every previously stored record present and unchanged. -/
theorem addScanLog_frame (store : List ScanLog) (d : ScanLogData) (gid : String) :
    (addScanLog store d gid).1 = store ++ [d.withId gid] ∧
    (addScanLog store d gid).2 = d.withId gid ∧
    (d.withId gid).id = gid ∧
    (d.withId gid).sessionId = d.sessionId ∧
    (d.withId gid).vin = d.vin ∧
    (d.withId gid).parkingArea = d.parkingArea ∧
    (d.withId gid).timestamp = d.timestamp ∧
    (d.withId gid).location = d.location ∧
    (d.withId gid).imageUrl = d.imageUrl ∧
    (d.withId gid).entryMethod = d.entryMethod ∧
    (d.withId gid).userId = d.userId ∧
    (d.withId gid).userEmail = d.userEmail ∧
    (addScanLog store d gid).1.take store.length = store ∧
    (addScanLog store d gid).1.length = store.length + 1 := by
  refine ⟨rfl, rfl, rfl, rfl, rfl, rfl, rfl, rfl, rfl, rfl, rfl, rfl, ?_, ?_⟩
  · exact List.take_left store [d.withId gid]
  · simp [addScanLog]

/-- C2 counterexample: `addScanLog` itself performs no duplicate check.  With
a store already holding `vinX` for session `S1` and a candidate carrying the
same identifier and session, the append succeeds and the audit log grows,
where the claim mandates failure with an unchanged log. -/
theorem addScanLog_no_duplicate_check :
    sessionHasVin [logX] vinX = true ∧
    logX.sessionId = (manualLogData metaS1 vinX 5 locP).sessionId ∧
    (addScanLog [logX] (manualLogData metaS1 vinX 5 locP) "log2").1 =
      [logX, (manualLogData metaS1 vinX 5 locP).withId "log2"] ∧
    (addScanLog [logX] (manualLogData metaS1 vinX 5 locP) "log2").1 ≠ [logX] := by
  refine ⟨by decide, rfl, rfl, by decide⟩

/-- C2 amended: duplicate rejection happens in the capture coordinators, not
in `addScanLog`; whenever the session logs already contain the identifier,
`confirmVin` (and `handleSubmit` for a well-formed manual VIN) fails with the
duplicate error before anything is appended, leaving session logs and audit
log unchanged. -/
theorem coordinator_duplicate_rejection (sessionLogs store : List ScanLog)
    (m : SessionMeta) (vin : String)
    (hdup : sessionHasVin sessionLogs vin = true) :
    (∀ (geo : Option GeolocationCoordinates) (url gid : String) (now : ℕ),
      confirmVin sessionLogs store m vin geo url gid now =
        (Except.error ScanError.duplicateVin, sessionLogs, store)) ∧
    (∀ (geo : Option GeolocationCoordinates) (gid : String) (now : ℕ),
      vin.length = 17 →
      manualHandleSubmit sessionLogs store m vin geo gid now =
        (Except.error ScanError.duplicateVin, sessionLogs, store)) := by
  constructor
  · intro geo url gid now
    simp [confirmVin, hdup]
  · intro geo gid now h17
    simp [manualHandleSubmit, h17, hdup]

/-- C2 witness: with `vinX` already in session `S1`, a camera confirmation of
`vinX` is rejected as a duplicate with both logs unchanged. -/
theorem coordinator_duplicate_rejection_witness :
    confirmVin [logX] [] metaS1 vinX (some locP) "url1" "log9" 9 =
      (Except.error ScanError.duplicateVin, [logX], []) := by
  have h := coordinator_duplicate_rejection [logX] [] metaS1 vinX (by decide)
  exact h.1 (some locP) "url1" "log9" 9

/-- C3 counterexample: the claim's alphabet `{A–H, J–N, P–R, 0–9}` is not the
code's.  On the 17-character input `SSSSSSSSSSSSSSSSS`, zero characters
survive the claim's alphabet (so the claim mandates an invalid-format
failure), yet the code keeps every `S` and returns the string; moreover the
claim's alphabet accepts `Q`, which the code strips. -/
theorem extractVin_alphabet_counterexample :
    ((jsTrim "SSSSSSSSSSSSSSSSS").data.filter isSpecClaimVinChar).length = 0 ∧
    extractVinFromImage "SSSSSSSSSSSSSSSSS" = Except.ok "SSSSSSSSSSSSSSSSS" ∧
    isSpecClaimVinChar 'Q' = true ∧
    isVinChar 'Q' = false := by
  refine ⟨by decide, by rfl, by decide, by decide⟩

/-- C3 amended: single-identifier parsing strips all characters outside the
alphabet `{A–H, J–N, P, R–Z, 0–9}` (all uppercase letters except I, O, Q,
plus digits); if the stripped remainder has length other than 17 the
operation fails with an invalid-format error carrying that length, and if
exactly 17 valid characters remain the stripped string is returned unchanged
in character order. -/
theorem extractVinFromImage_spec (s : String) :
    (extractVinFromImage s = Except.ok (stripToVinAlphabet (jsTrim s)) ↔
      (stripToVinAlphabet (jsTrim s)).length = 17) ∧
    ((stripToVinAlphabet (jsTrim s)).length ≠ 17 →
      extractVinFromImage s = Except.error (stripToVinAlphabet (jsTrim s)).length) ∧
    (stripToVinAlphabet (jsTrim s)).data = (jsTrim s).data.filter isVinChar := by
  refine ⟨⟨fun h => ?_, fun h => ?_⟩, fun h => ?_, rfl⟩
  · by_contra hne
    simp [extractVinFromImage, hne] at h
  · simp [extractVinFromImage, h]
  · simp [extractVinFromImage, h]

/-- C3 witness: an input with exactly 17 alphabet characters amid punctuation
parses to the stripped string; a 3-character input fails carrying length 3. -/
theorem extractVinFromImage_spec_witness :
    extractVinFromImage "##1G1FW1R77J4100000" = Except.ok "1G1FW1R77J4100000" ∧
    extractVinFromImage "ABC" = Except.error 3 := by
  constructor
  · have hs : stripToVinAlphabet (jsTrim "##1G1FW1R77J4100000") = "1G1FW1R77J4100000" := by
      decide
    have h := (extractVinFromImage_spec "##1G1FW1R77J4100000").1.mpr (by decide)
    rwa [hs] at h
  · have hl : (stripToVinAlphabet (jsTrim "ABC")).length = 3 := by decide
    have h := (extractVinFromImage_spec "ABC").2.1 (by decide)
    rwa [hl] at h

/-- C1: once a record for an identifier is accepted into a session, a later
attempt to record the same identifier in that session fails with the
duplicate error and leaves the session's record set (and the audit log)
unchanged, while recording it in a different session whose ledger lacks the
identifier succeeds — the duplicate check sees only the current session's
accepted identifiers.  The successful step also preserves distinctness of
the session's identifiers. -/
theorem manual_record_session_dedup (m : SessionMeta)
    (sessionLogs store : List ScanLog) (vin : String)
    (loc : GeolocationCoordinates) (gid : String) (now : ℕ)
    (h17 : vin.length = 17) (hnew : sessionHasVin sessionLogs vin = false) :
    manualHandleSubmit sessionLogs store m vin (some loc) gid now =
      (Except.ok ((manualLogData m vin now loc).withId gid),
       (manualLogData m vin now loc).withId gid :: sessionLogs,
       store ++ [(manualLogData m vin now loc).withId gid]) ∧
    (∀ (store2 : List ScanLog) (geo2 : Option GeolocationCoordinates)
        (gid2 : String) (now2 : ℕ),
      manualHandleSubmit ((manualLogData m vin now loc).withId gid :: sessionLogs)
          store2 m vin geo2 gid2 now2 =
        (Except.error ScanError.duplicateVin,
         (manualLogData m vin now loc).withId gid :: sessionLogs, store2)) ∧
    (∀ (sl2 st2 : List ScanLog) (m2 : SessionMeta) (loc2 : GeolocationCoordinates)
        (gid2 : String) (now2 : ℕ),
      sessionHasVin sl2 vin = false →
      manualHandleSubmit sl2 st2 m2 vin (some loc2) gid2 now2 =
        (Except.ok ((manualLogData m2 vin now2 loc2).withId gid2),
         (manualLogData m2 vin now2 loc2).withId gid2 :: sl2,
         st2 ++ [(manualLogData m2 vin now2 loc2).withId gid2])) ∧
    ((sessionLogs.map ScanLog.vin).Nodup →
      ((((manualHandleSubmit sessionLogs store m vin (some loc) gid now).2.1).map
          ScanLog.vin).Nodup)) := by
  have hsub : ∀ (sl2 st2 : List ScanLog) (m2 : SessionMeta)
      (loc2 : GeolocationCoordinates) (gid2 : String) (now2 : ℕ),
      sessionHasVin sl2 vin = false →
      manualHandleSubmit sl2 st2 m2 vin (some loc2) gid2 now2 =
        (Except.ok ((manualLogData m2 vin now2 loc2).withId gid2),
         (manualLogData m2 vin now2 loc2).withId gid2 :: sl2,
         st2 ++ [(manualLogData m2 vin now2 loc2).withId gid2]) := by
    intro sl2 st2 m2 loc2 gid2 now2 hn
    simp [manualHandleSubmit, h17, hn, addScanLog]
  refine ⟨hsub sessionLogs store m loc gid now hnew, ?_, hsub, ?_⟩
  · intro store2 geo2 gid2 now2
    have hd : sessionHasVin ((manualLogData m vin now loc).withId gid :: sessionLogs) vin =
        true := by
      simp [sessionHasVin, ScanLogData.withId, manualLogData]
    simp [manualHandleSubmit, h17, hd]
  · intro hnodup
    rw [hsub sessionLogs store m loc gid now hnew]
    simp only [List.map_cons, List.nodup_cons]
    refine ⟨fun hmem => ?_, hnodup⟩
    have : sessionHasVin sessionLogs vin = true := by
      rcases List.mem_map.1 hmem with ⟨l, hl, hv⟩
      simp [sessionHasVin, List.any_eq_true]
      exact ⟨l, hl, by simp [ScanLogData.withId, manualLogData] at hv ⊢; exact hv⟩
    rw [this] at hnew
    exact absurd hnew (by decide)

/-- C1 witness: recording `vinX` in the empty session `S1` succeeds, a second
attempt in `S1` fails as a duplicate with state unchanged, and recording
`vinX` in a fresh session `S2` succeeds. -/
theorem manual_record_session_dedup_witness :
    manualHandleSubmit [] [] metaS1 vinX (some locP) "log1" 0 =
      (Except.ok logX, [logX], [logX]) ∧
    manualHandleSubmit [logX] [logX] metaS1 vinX (some locP) "log2" 3 =
      (Except.error ScanError.duplicateVin, [logX], [logX]) ∧
    (manualHandleSubmit [] [] metaS2 vinX (some locP) "log3" 4).1 =
      Except.ok ((manualLogData metaS2 vinX 4 locP).withId "log3") := by
  have h := manual_record_session_dedup metaS1 [] [] vinX locP "log1" 0
    (by decide) (by decide)
  refine ⟨h.1, ?_, ?_⟩
  · have h2 := h.2.1 [logX] (some locP) "log2" 3
    exact h2
  · rw [h.2.2.1 [] [] metaS2 locP "log3" 4 (by decide)]

/-- C4: multi-identifier parsing is the two-stage function over the raw
recognition text: after fence stripping, a strict JSON-array parse keeps the
string elements of length 10–20 and deduplicates; on parse failure (or a
non-array) the fallback scan of 10–20-character uppercase/digit runs over the
raw text applies, also deduplicated.  The doubled JSON array collapses to a
single identifier; the malformed-JSON prose input fails `JSON.parse` and the
fallback returns exactly `ABCDEFGHIJ1234`; the result never holds
duplicates. -/
theorem handleAnalyze_two_stage_parse :
    handleAnalyzeVins "[\"1G1FW1R77J4100000\",\"1G1FW1R77J4100000\"]" =
      ["1G1FW1R77J4100000"] ∧
    parseJson (cleanRecognitionText proseRecognition) = none ∧
    handleAnalyzeVins proseRecognition = ["ABCDEFGHIJ1234"] ∧
    (∀ raw : String, (handleAnalyzeVins raw).Nodup) := by
  refine ⟨by rfl, by rfl, by rfl, ?_⟩
  intro raw
  rw [handleAnalyzeVins]
  split
  · exact jsSetDedup_nodup _
  · exact jsSetDedup_nodup _

/-- C5: the Frame Sampler computes `frameCount` timestamps from the evenly
spaced grid `i * (duration / frameCount)` clamped at `duration - 0.1`; every
timestamp is strictly before the duration, the first is 0 whenever the
duration is at least the epsilon, and for duration 8 with `FRAME_COUNT = 8`
the timestamps are exactly `0,…,7`, strictly increasing with last `7 < 8`. -/
theorem extractFrames_timestamps :
    extractFrameTimes (finalDuration (some 8)) FRAME_COUNT =
      [0, 1, 2, 3, 4, 5, 6, 7] ∧
    List.Chain' (fun a b => a < b) (extractFrameTimes (finalDuration (some 8)) FRAME_COUNT) ∧
    (extractFrameTimes (finalDuration (some 8)) FRAME_COUNT).getLast? = some 7 ∧
    (7 : ℚ) < 8 ∧
    (∀ (d : ℚ) (fc : ℕ), (extractFrameTimes d fc).length = fc) ∧
    (∀ (d : ℚ) (fc : ℕ), ∀ t ∈ extractFrameTimes d fc, t < d) ∧
    (∀ d : ℚ, 1 / 10 ≤ d → ∀ fc : ℕ, 0 < fc → (extractFrameTimes d fc).headI = 0) := by
  have hlist : extractFrameTimes (finalDuration (some 8)) FRAME_COUNT =
      [0, 1, 2, 3, 4, 5, 6, 7] := by
    norm_num [extractFrameTimes, finalDuration, FRAME_COUNT, List.range_succ, min_def]
  refine ⟨hlist, ?_, ?_, by norm_num, ?_, ?_, ?_⟩
  · rw [hlist]
    norm_num [List.chain'_cons]
  · rw [hlist]
    rfl
  · intro d fc
    unfold extractFrameTimes
    rw [List.length_map, List.length_range]
  · intro d fc t ht
    simp only [extractFrameTimes, List.mem_map, List.mem_range] at ht
    obtain ⟨i, _, rfl⟩ := ht
    have h1 : min ((i : ℚ) * (d / fc)) (d - 1 / 10) ≤ d - 1 / 10 := min_le_right _ _
    linarith
  · intro d hd fc hfc
    obtain ⟨n, rfl⟩ := Nat.exists_eq_succ_of_ne_zero (Nat.pos_iff_ne_zero.1 hfc)
    unfold extractFrameTimes
    rw [List.range_succ_eq_map, List.map_cons]
    simp only [List.headI, Nat.cast_zero, zero_mul]
    rw [min_eq_left (by linarith : (0 : ℚ) ≤ d - 1 / 10)]

/-- C5 witness: instantiating the universal parts at duration 8 and 8 frames. -/
theorem extractFrames_timestamps_witness :
    (extractFrameTimes 8 8).length = 8 ∧ (extractFrameTimes 8 8).headI = 0 := by
  have h := extractFrames_timestamps
  exact ⟨h.2.2.2.2.1 8 8, h.2.2.2.2.2.2 8 (by norm_num) 8 (by norm_num)⟩

/-- C6: when geolocation fails (`none`), a manual, camera, or image-upload
submit fails as a whole with session logs and audit log unchanged — no
default coordinate is substituted; only the video batch path substitutes the
`(0, 0)` placeholder and continues persisting every non-duplicate candidate
of the batch. -/
theorem geolocation_failure_handling :
    (∀ (sl st : List ScanLog) (m : SessionMeta) (vin gid : String) (now : ℕ),
      ∃ e, manualHandleSubmit sl st m vin none gid now = (Except.error e, sl, st)) ∧
    (∀ (sl st : List ScanLog) (m : SessionMeta) (vin url gid : String) (now : ℕ),
      ∃ e, confirmVin sl st m vin none url gid now = (Except.error e, sl, st)) ∧
    (∀ (sl st : List ScanLog) (m : SessionMeta) (text url gid : String) (now : ℕ),
      imageHandleSubmit sl st m none text url gid now =
        (Except.error ScanError.locationUnavailable, sl, st)) ∧
    (∀ (sl st : List ScanLog) (m : SessionMeta) (vins : List String)
        (genId : ℕ → String) (now : ℕ),
      handleGenerateRecords sl st m vins none genId now =
        handleGenerateRecords sl st m vins
          (some { latitude := 0, longitude := 0 }) genId now) ∧
    (∀ (sl st : List ScanLog) (m : SessionMeta) (vins : List String)
        (genId : ℕ → String) (now : ℕ),
      ∀ l ∈ (handleGenerateRecords sl st m vins none genId now).2.1,
        l ∈ st ∨ l.location = { latitude := 0, longitude := 0 }) ∧
    (∀ (sl st : List ScanLog) (m : SessionMeta) (vins : List String)
        (genId : ℕ → String) (now : ℕ),
      (handleGenerateRecords sl st m vins none genId now).2.2 =
        (vins.filter (fun v => !sessionHasVin sl v)).length) := by
  refine ⟨?_, ?_, ?_, ?_, ?_, ?_⟩
  · intro sl st m vin gid now
    rw [manualHandleSubmit]
    by_cases h17 : vin.length ≠ 17
    · exact ⟨ScanError.invalidLength, by simp [h17]⟩
    · by_cases hdup : sessionHasVin sl vin
      · exact ⟨ScanError.duplicateVin, by simp [h17, hdup]⟩
      · exact ⟨ScanError.locationUnavailable, by simp [h17, hdup]⟩
  · intro sl st m vin url gid now
    rw [confirmVin]
    by_cases hdup : sessionHasVin sl vin
    · exact ⟨ScanError.duplicateVin, by simp [hdup]⟩
    · exact ⟨ScanError.locationUnavailable, by simp [hdup]⟩
  · intro sl st m text url gid now
    rfl
  · intro sl st m vins genId now
    rfl
  · intro sl st m vins genId now l hl
    have h := (videoGenLoop_spec sl m { latitude := 0, longitude := 0 } now genId
      vins sl st 0).2.2.2.2 l hl
    exact h.imp_right (fun hp => hp.1)
  · intro sl st m vins genId now
    exact (videoGenLoop_spec sl m { latitude := 0, longitude := 0 } now genId
      vins sl st 0).1

/-- C6 witness: a concrete video batch run with geolocation failed persists
its record with the zero/zero placeholder. -/
theorem geolocation_failure_handling_witness :
    ((videoLogData metaS1 vinX 0 { latitude := 0, longitude := 0 }).withId "log1") ∈
        ([] : List ScanLog) ∨
      ((videoLogData metaS1 vinX 0
          { latitude := 0, longitude := 0 }).withId "log1").location =
        { latitude := 0, longitude := 0 } := by
  have h := geolocation_failure_handling
  exact h.2.2.2.2.1 [] [] metaS1 [vinX] (fun _ => "log1") 0
    ((videoLogData metaS1 vinX 0 { latitude := 0, longitude := 0 }).withId "log1")
    (by decide)

/-- C7: on confirmation the video batch persists, in sequence, exactly the
detected identifiers missing from the session snapshot; duplicates are
skipped without aborting the batch; the reported count equals the number of
newly persisted records, the audit log keeps its old entries and grows by
that count, and the session total grows by the same count.  In particular, 3
detected identifiers of which 1 already exists yield exactly 2 new records
and a session total of pre-existing + 2. -/
theorem video_batch_persistence :
    (∀ (sl st : List ScanLog) (m : SessionMeta) (vins : List String)
        (loc : GeolocationCoordinates) (genId : ℕ → String) (now : ℕ),
      (handleGenerateRecords sl st m vins (some loc) genId now).2.2 =
        (vins.filter (fun v => !sessionHasVin sl v)).length ∧
      (handleGenerateRecords sl st m vins (some loc) genId now).2.1.length =
        st.length + (handleGenerateRecords sl st m vins (some loc) genId now).2.2 ∧
      (handleGenerateRecords sl st m vins (some loc) genId now).2.1.take st.length = st ∧
      (handleGenerateRecords sl st m vins (some loc) genId now).1.length =
        sl.length + (handleGenerateRecords sl st m vins (some loc) genId now).2.2) ∧
    (handleGenerateRecords [logX] [logX] metaS1 [vinX, vinB, vinC] (some locP)
        (fun k => toString k) 7).2.2 = 2 ∧
    (handleGenerateRecords [logX] [logX] metaS1 [vinX, vinB, vinC] (some locP)
        (fun k => toString k) 7).1.length = 1 + 2 ∧
    (handleGenerateRecords [logX] [logX] metaS1 [vinX, vinB, vinC] (some locP)
        (fun k => toString k) 7).2.1.length = 1 + 2 := by
  refine ⟨?_, by decide, by decide, by decide⟩
  intro sl st m vins loc genId now
  obtain ⟨h1, h2, h3, h4, h5⟩ := videoGenLoop_spec sl m loc now genId vins sl st 0
  refine ⟨h1, ?_, h4, ?_⟩
  · simp only [handleGenerateRecords, Option.getD] at h2 ⊢
    rw [h2, h1]
  · simp only [handleGenerateRecords, Option.getD] at h3 ⊢
    rw [h3, h1]

/-- C8: under the sequential schedule the model rejects the second
confirmation as a duplicate, but under the interleaved schedule — both
duplicate checks before either append, exactly what the awaits between
`confirmVin`'s check and its `addScanLog`/`onScan` allow — both
confirmations pass the stale check, both append, neither observes the
duplicate error, and the session ends with two records carrying the same
identifier. -/
theorem interleaved_confirm_race :
    (runRace vinX raceLogA raceLogB seqSchedule raceInit).phaseA =
      TaskPhase.appended ∧
    (runRace vinX raceLogA raceLogB seqSchedule raceInit).phaseB =
      TaskPhase.rejected ∧
    ((runRace vinX raceLogA raceLogB seqSchedule raceInit).store.filter
      (fun l => l.vin == vinX && l.sessionId == "S1")).length = 1 ∧
    (runRace vinX raceLogA raceLogB racySchedule raceInit).phaseA =
      TaskPhase.appended ∧
    (runRace vinX raceLogA raceLogB racySchedule raceInit).phaseB =
      TaskPhase.appended ∧
    ((runRace vinX raceLogA raceLogB racySchedule raceInit).store.filter
      (fun l => l.vin == vinX && l.sessionId == "S1")).length = 2 ∧
    ((runRace vinX raceLogA raceLogB racySchedule raceInit).sessionLogs.filter
      (fun l => l.vin == vinX)).length = 2 := by
  refine ⟨by rfl, by rfl, by rfl, by rfl, by rfl, by rfl, by rfl⟩

/-- C9 counterexample: the video path persists the 14-character identifier
`ABCDEFGHIJ1234` produced by the fallback parser, so not every persisted
record carries a 17-character identifier. -/
theorem video_persists_short_identifier :
    ((handleGenerateRecords [] [] metaS1 (handleAnalyzeVins proseRecognition)
        (some locP) (fun _ => "log1") 0).2.1).map ScanLog.vin =
      ["ABCDEFGHIJ1234"] ∧
    ("ABCDEFGHIJ1234" : String).length = 14 ∧
    (14 : ℕ) ≠ 17 := by
  refine ⟨by rfl, by rfl, by decide⟩

/-- C9 amended: identifier format is per capture method — camera/image
recognition yields exactly 17 characters from the restricted alphabet,
manual input is uppercased and filtered to the alphabet with submission
requiring exactly 17 characters, while video-path identifiers are only
guaranteed to be 10–20 characters long, with no further normalization. -/
theorem identifier_format_by_method :
    (∀ (s v : String), extractVinFromImage s = Except.ok v →
      v.length = 17 ∧ v.data.all isVinChar = true) ∧
    (∀ value : String, (handleVinChange value).length ≤ 17 ∧
      (handleVinChange value).data.all isVinChar = true) ∧
    (∀ (sl st : List ScanLog) (m : SessionMeta) (vin : String)
        (geo : Option GeolocationCoordinates) (gid : String) (now : ℕ),
      vin.length ≠ 17 →
      manualHandleSubmit sl st m vin geo gid now =
        (Except.error ScanError.invalidLength, sl, st)) ∧
    (∀ raw : String, ∀ v ∈ handleAnalyzeVins raw,
      10 ≤ v.length ∧ v.length ≤ 20) := by
  have hall : ∀ x : String, (stripToVinAlphabet x).data.all isVinChar = true := by
    intro x
    rw [List.all_eq_true]
    intro c hc
    exact (List.mem_filter.1 hc).2
  refine ⟨?_, ?_, ?_, ?_⟩
  · intro s v h
    by_cases hlen : (stripToVinAlphabet (jsTrim s)).length = 17
    · have hv : stripToVinAlphabet (jsTrim s) = v := by
        have := ((extractVinFromImage_spec s).1.mpr hlen).symm.trans h
        simpa using this
      exact hv ▸ ⟨hlen, hall _⟩
    · have := (extractVinFromImage_spec s).2.1 hlen
      rw [this] at h
      exact absurd h (by simp)
  · intro value
    constructor
    · rw [handleVinChange, stringMk_length, List.length_take]
      exact min_le_left _ _
    · rw [handleVinChange, List.all_eq_true]
      intro c hc
      exact (List.mem_filter.1 (List.mem_of_mem_take hc)).2
  · intro sl st m vin geo gid now h
    simp [manualHandleSubmit, h]
  · intro raw v hv
    rw [handleAnalyzeVins] at hv
    revert hv
    split
    · intro hv
      rcases List.mem_filterMap.1 (mem_jsSetDedup hv) with ⟨j, _, heq⟩
      match j with
      | Json.str s =>
          by_cases hcond : (10 ≤ s.length && s.length ≤ 20) = true
          · simp only [hcond, if_true, Option.some.injEq] at heq
            subst heq
            simpa using hcond
          · simp [hcond] at heq
      | Json.num x => simp at heq
      | Json.bool b => simp at heq
      | Json.null => simp at heq
      | Json.arr es => simp at heq
      | Json.obj fs => simp at heq
    · intro hv
      exact vinRegexScan_length _ _ (mem_jsSetDedup hv)

/-- C9 amended witness: a concrete camera/image recognition output is 17
characters from the restricted alphabet. -/
theorem identifier_format_by_method_witness :
    ("1G1FW1R77J4100000" : String).length = 17 ∧
    ("1G1FW1R77J4100000" : String).data.all isVinChar = true := by
  have h := identifier_format_by_method
  exact h.1 "1G1FW1R77J4100000" "1G1FW1R77J4100000" (by rfl)

end VehicleStock
